import Mathlib

/-!
Verification of the OpenChoreo generic dynamic-resource access layer.

The definitions below are a shallow embedding of
`internal/openchoreo-api/services/resource_service.go` and the schema
service (`ListCRDs`, `GetCRD`, `convertOpenAPISchemaToMap`). Go maps
decoded from JSON are modelled as association lists of string keys to
JSON values; the Kubernetes client is modelled as an instrumented store
(object table keyed by group/version/kind, namespace and name, plus a
call log and an error-injection table for non-NotFound Get failures).
-/

namespace OpenChoreo

/-- A JSON value, as produced by `json.Unmarshal` into `interface{}`.
Go numbers are modelled as integers; the flattener and the resource
service never compute with numeric payloads, they only move them. -/
inductive Json where
  | null : Json
  | bool (b : Bool) : Json
  | num (n : Int) : Json
  | str (s : String) : Json
  | arr (elems : List Json) : Json
  | obj (fields : List (String × Json)) : Json

/-- Replace the value at key `k` (first occurrence) or append the binding,
modelling assignment `m[k] = v` on a Go map decoded from JSON. -/
def setField : List (String × Json) → String → Json → List (String × Json)
  | [], k, v => [(k, v)]
  | (k', v') :: t, k, v => if k' = k then (k, v) :: t else (k', v') :: setField t k v

/-- Remove the binding at key `k`, modelling `delete(m, k)` (every
occurrence goes, keeping the association list a map). -/
def removeField : List (String × Json) → String → List (String × Json)
  | [], _ => []
  | (k', v') :: t, k => if k' = k then removeField t k else (k', v') :: removeField t k

/-- An `unstructured.Unstructured` object: the raw decoded JSON map. -/
abbrev Unstr := List (String × Json)

/-- `u.GetAPIVersion()`: the top-level `apiVersion` string, `""` when
absent or not a string. -/
def getAPIVersion (o : Unstr) : String :=
  match o.lookup "apiVersion" with
  | some (.str s) => s
  | _ => ""

/-- `u.GetKind()`: the top-level `kind` string, `""` when absent or not
a string. -/
def getKind (o : Unstr) : String :=
  match o.lookup "kind" with
  | some (.str s) => s
  | _ => ""

/-- Read the nested string `metadata.<k>`, `""` when any step is missing
or has the wrong dynamic type (`getNestedString` semantics). -/
def getMetadataStr (o : Unstr) (k : String) : String :=
  match o.lookup "metadata" with
  | some (.obj m) =>
    match m.lookup k with
    | some (.str s) => s
    | _ => ""
  | _ => ""

/-- `u.GetName()`. -/
def getName (o : Unstr) : String := getMetadataStr o "name"

/-- `u.GetNamespace()`. -/
def getNamespace (o : Unstr) : String := getMetadataStr o "namespace"

/-- `SetNestedField(u.Object, v, "metadata", k)`: creates `metadata` when
absent; silently does nothing when `metadata` exists but is not a map
(the Go error return is ignored by `u.setNestedField`). -/
def setMetadataField (o : Unstr) (k : String) (v : Json) : Unstr :=
  match o.lookup "metadata" with
  | some (.obj m) => setField o "metadata" (.obj (setField m k v))
  | none => setField o "metadata" (.obj [(k, v)])
  | some _ => o

/-- `RemoveNestedField(u.Object, "metadata", k)`. -/
def removeMetadataField (o : Unstr) (k : String) : Unstr :=
  match o.lookup "metadata" with
  | some (.obj m) => setField o "metadata" (.obj (removeField m k))
  | _ => o

/-- `u.SetNamespace(ns)`: an empty namespace removes the field, a
non-empty one is written under `metadata.namespace`. -/
def setNamespace (o : Unstr) (ns : String) : Unstr :=
  if ns = "" then removeMetadataField o "namespace"
  else setMetadataField o "namespace" (.str ns)

/-- `schema.GroupVersion`. -/
structure GroupVersion where
  group : String
  version : String
deriving DecidableEq, Repr

/-- `schema.GroupVersionKind`. -/
structure GroupVersionKind where
  group : String
  version : String
  kind : String
deriving DecidableEq, Repr

/-- `gvk.Empty()`: all three components empty. -/
def gvkEmpty (g : GroupVersionKind) : Bool :=
  g.group == "" && g.version == "" && g.kind == ""

/-- `gv.String()`: `"group/version"`, or just the version for the core
(empty) group. -/
def gvString (gv : GroupVersion) : String :=
  if gv.group ≠ "" then gv.group ++ "/" ++ gv.version else gv.version

/-- `schema.ParseGroupVersion`: `""` and `"/"` denote the empty
group/version; no slash means the core group; one slash splits into the
part before it (`gv[:i]`) and the part after it (`gv[i+1:]`); more
slashes are malformed. -/
def parseGroupVersion (gv : String) : Except String GroupVersion :=
  if gv.length = 0 || gv = "/" then .ok ⟨"", ""⟩
  else
    match (gv.toList.filter (· = '/')).length with
    | 0 => .ok ⟨"", gv⟩
    | 1 =>
      let cs := gv.toList
      .ok ⟨String.mk (cs.takeWhile (· ≠ '/')), String.mk ((cs.dropWhile (· ≠ '/')).drop 1)⟩
    | _ => .error ("unexpected GroupVersion string: " ++ gv)

/-- `u.GroupVersionKind()`: parse `apiVersion` (empty GVK on a parse
error, even when `kind` is set) and attach `kind`. -/
def objGroupVersionKind (o : Unstr) : GroupVersionKind :=
  match parseGroupVersion (getAPIVersion o) with
  | .error _ => ⟨"", "", ""⟩
  | .ok gv => ⟨gv.group, gv.version, getKind o⟩

/-- `u.SetGroupVersionKind(gvk)`: writes `apiVersion` and `kind`. -/
def setGroupVersionKind (o : Unstr) (g : GroupVersionKind) : Unstr :=
  setField (setField o "apiVersion" (.str (gvString ⟨g.group, g.version⟩))) "kind" (.str g.kind)

/-- The single tenant group (`const openchoreoGroup`). -/
def openchoreoGroup : String := "openchoreo.dev"

/-- The fixed server-side-apply field manager used by `applyToKubernetes`. -/
def fieldManager : String := "openchoreo-mcp"

/-- The static cluster-scoped kind set of `handleResourceNamespace`. -/
def clusterScopedKinds : List String :=
  ["Organization", "DataPlane", "BuildPlane", "ComponentTypeDefinition", "Addon",
   "ServiceClass", "WebApplicationClass", "ScheduledTaskClass", "APIClass",
   "ConfigurationGroup", "ClusterWorkflowTemplate", "CustomResourceDefinition"]

/-- Errors surfaced by the backing store, as the service distinguishes
them: `NotFound` versus anything else. -/
inductive StoreErr where
  | notFound : StoreErr
  | other (msg : String) : StoreErr
deriving DecidableEq, Repr

/-- Coordinates of one instance in the store. -/
structure ObjKey where
  gvk : GroupVersionKind
  ns : String
  name : String
deriving DecidableEq, Repr

/-- One call issued to the backing store (instrumentation). -/
inductive StoreCall where
  | getCall (k : ObjKey) : StoreCall
  | createCall (k : ObjKey) : StoreCall
  | patchCall (k : ObjKey) (force : Bool) (manager : String) : StoreCall
deriving DecidableEq, Repr

/-- The backing cluster store: an object table, an injection table of
keys whose Get fails with a non-NotFound error (modelling transient
store-communication failures), and a log of every call issued. -/
structure Store where
  objs : List (ObjKey × Unstr)
  getErrs : List (ObjKey × String)
  log : List StoreCall

/-- `k8sClient.Get`: injected failure, else table lookup, else NotFound. -/
def k8sGet (s : Store) (k : ObjKey) : Except StoreErr Unstr × Store :=
  let s' := { s with log := s.log ++ [.getCall k] }
  match s.getErrs.lookup k with
  | some msg => (.error (.other msg), s')
  | none =>
    match s.objs.lookup k with
    | some o => (.ok o, s')
    | none => (.error .notFound, s')

/-- `k8sClient.Create`: fails when the key already exists. -/
def k8sCreate (s : Store) (k : ObjKey) (o : Unstr) : Except StoreErr Unit × Store :=
  let s' := { s with log := s.log ++ [.createCall k] }
  match s.objs.lookup k with
  | some _ => (.error (.other "already exists"), s')
  | none => (.ok (), { s' with objs := s.objs ++ [(k, o)] })

/-- Replace the object bound to `k`, or append it. -/
def setKey : List (ObjKey × Unstr) → ObjKey → Unstr → List (ObjKey × Unstr)
  | [], k, v => [(k, v)]
  | (k', v') :: t, k, v => if k' = k then (k, v) :: t else (k', v') :: setKey t k v

/-- `k8sClient.Patch` with `client.Apply`: a server-side apply taking the
full object as the intended final state, recording the force-ownership
flag and field manager. -/
def k8sPatch (s : Store) (k : ObjKey) (o : Unstr) (force : Bool) (manager : String) :
    Except StoreErr Unit × Store :=
  (.ok (), { s with objs := setKey s.objs k o, log := s.log ++ [.patchCall k force manager] })

/-- The coordinates `applyToKubernetes` fetches and writes at: the
object's own group/version/kind, namespace and name. -/
def applyKeyOf (obj : Unstr) : ObjKey :=
  ⟨objGroupVersionKind obj, getNamespace obj, getName obj⟩

/-- `applyToKubernetes`: get-then-branch upsert. NotFound from the fetch
leads to Create and `"created"`; any other fetch error is propagated;
a successful fetch leads to a forced server-side-apply Patch under
`fieldManager` and `"updated"`. -/
def applyToKubernetes (s : Store) (obj : Unstr) : Except StoreErr String × Store :=
  let k : ObjKey := applyKeyOf obj
  match k8sGet s k with
  | (.error e, s1) =>
    if e ≠ .notFound then (.error e, s1)
    else
      match k8sCreate s1 k obj with
      | (.error e2, s2) => (.error e2, s2)
      | (.ok _, s2) => (.ok "created", s2)
  | (.ok _, s1) =>
    match k8sPatch s1 k obj true fieldManager with
    | (.error e2, s2) => (.error e2, s2)
    | (.ok _, s2) => (.ok "updated", s2)

/-- The validation errors of `validateResource`, mirroring its
`fmt.Errorf` messages as structured constructors. -/
inductive ValidateErr where
  | missingKind : ValidateErr
  | missingAPIVersion : ValidateErr
  | invalidAPIVersionFormat (apiVersion : String) : ValidateErr
  | forbiddenGroup (group : String) : ValidateErr
  | missingMetadata : ValidateErr
  | missingName : ValidateErr
deriving DecidableEq, Repr

/-- `validateResource`: checks `kind`, `apiVersion` (parseable, tenant
group) and `metadata.name`, returning `(kind, apiVersion, name)`.
A Go type assertion `.(string)` fails on a missing key or a non-string
value, which collapses with the empty-string check. -/
def validateResource (resourceObj : List (String × Json)) :
    Except ValidateErr (String × String × String) :=
  match resourceObj.lookup "kind" with
  | some (.str kind) =>
    if kind = "" then .error .missingKind
    else
      match resourceObj.lookup "apiVersion" with
      | some (.str apiVersion) =>
        if apiVersion = "" then .error .missingAPIVersion
        else
          match parseGroupVersion apiVersion with
          | .error _ => .error (.invalidAPIVersionFormat apiVersion)
          | .ok gv =>
            if gv.group ≠ openchoreoGroup then .error (.forbiddenGroup gv.group)
            else
              match resourceObj.lookup "metadata" with
              | some (.obj metadata) =>
                match metadata.lookup "name" with
                | some (.str name) =>
                  if name = "" then .error .missingName else .ok (kind, apiVersion, name)
                | _ => .error .missingName
              | _ => .error .missingMetadata
      | _ => .error .missingAPIVersion
  | _ => .error .missingKind

/-- `handleNamespacedResource`: keep a set namespace, default an empty
one to `"default"`. -/
def handleNamespacedResource (obj : Unstr) (_gvk : GroupVersionKind) : Except String Unstr :=
  if getNamespace obj ≠ "" then .ok obj
  else .ok (setNamespace obj "default")

/-- `handleResourceNamespace`: reconstruct the GVK when the object
carries none (failing on a malformed `apiVersion` argument), then clear
the namespace of cluster-scoped kinds or default namespaced ones. -/
def handleResourceNamespace (obj : Unstr) (apiVersion kind : String) : Except String Unstr :=
  let gvk := objGroupVersionKind obj
  let step : Except String (Unstr × GroupVersionKind) :=
    if gvkEmpty gvk then
      match parseGroupVersion apiVersion with
      | .error e => .error ("invalid apiVersion: " ++ e)
      | .ok gv =>
        let gvk' : GroupVersionKind := ⟨gv.group, gv.version, kind⟩
        .ok (setGroupVersionKind obj gvk', gvk')
    else .ok (obj, gvk)
  match step with
  | .error e => .error e
  | .ok (obj', gvk') =>
    if clusterScopedKinds.contains kind then
      .ok (if getNamespace obj' ≠ "" then setNamespace obj' "" else obj')
    else handleNamespacedResource obj' gvk'

/-- `ApplyResourceResult` (the `namespace` field is called `ns`). -/
structure ApplyResourceResult where
  apiVersion : String
  kind : String
  name : String
  ns : String
  operation : String
deriving DecidableEq, Repr

/-- The error classes of `ApplyResourceFromJSON`. -/
inductive ApplyErr where
  | parseFailed : ApplyErr
  | validation (e : ValidateErr) : ApplyErr
  | namespaceFailed (msg : String) : ApplyErr
  | applyFailed (e : StoreErr) : ApplyErr
deriving DecidableEq, Repr

/-- `ApplyResourceFromJSON`: parse (a `none` input models text rejected
by `json.Unmarshal`; a non-object JSON value is likewise rejected when
decoding into a map), validate, resolve the namespace, then upsert. -/
def ApplyResourceFromJSON (s : Store) (content : Option Json) :
    Except ApplyErr ApplyResourceResult × Store :=
  match content with
  | none => (.error .parseFailed, s)
  | some (.obj resourceObj) =>
    match validateResource resourceObj with
    | .error e => (.error (.validation e), s)
    | .ok (kind, apiVersion, name) =>
      match handleResourceNamespace resourceObj apiVersion kind with
      | .error e => (.error (.namespaceFailed e), s)
      | .ok obj' =>
        match applyToKubernetes s obj' with
        | (.error e, s') => (.error (.applyFailed e), s')
        | (.ok op, s') =>
          (.ok ⟨apiVersion, kind, name, getNamespace obj', op⟩, s')
  | some _ => (.error .parseFailed, s)

/-- A Go `time.Time` at second granularity: a wall-clock reading
(year, month, day, hour, minute, second) together with the UTC offset of
its location in minutes. An unstructured object's
`metadata.creationTimestamp` string becomes a `time.Time` through
`metav1.Time.UnmarshalQueryParameter`, which parses RFC3339 and then
applies `Local()`: every timestamp the projector sees has been
converted to the server process's local zone, so its wall clock is the
server-local reading of the creation instant and `offsetMin` is that
single server zone's offset. -/
structure GoTime where
  year : Nat
  month : Nat
  day : Nat
  hour : Nat
  minute : Nat
  second : Nat
  offsetMin : Int
deriving DecidableEq, Repr

/-- Zero-pad to two digits (Go layout components `01`, `02`, `15`, `04`, `05`). -/
def pad2 (n : Nat) : String :=
  if n < 10 then "0" ++ toString n else toString n

/-- Zero-pad to four digits (Go layout component `2006`). -/
def pad4 (n : Nat) : String :=
  if n < 10 then "000" ++ toString n
  else if n < 100 then "00" ++ toString n
  else if n < 1000 then "0" ++ toString n
  else toString n

/-- `creationTime.Format("2006-01-02T15:04:05Z")`. In this layout the
trailing `Z` is a literal character (Go only treats `Z` specially in the
components `Z07:00`/`Z0700`), so the wall-clock fields are printed in
the timestamp's own location and suffixed with `Z` whatever the offset. -/
def formatTimestamp (t : GoTime) : String :=
  pad4 t.year ++ "-" ++ pad2 t.month ++ "-" ++ pad2 t.day ++ "T" ++
    pad2 t.hour ++ ":" ++ pad2 t.minute ++ ":" ++ pad2 t.second ++ "Z"

/-- Days from 1970-01-01 of a proleptic-Gregorian civil date
(the standard era-based conversion). -/
def daysFromCivil (y m d : Nat) : Int :=
  let yi : Int := if m ≤ 2 then (y : Int) - 1 else (y : Int)
  let era : Int := (if 0 ≤ yi then yi else yi - 399) / 400
  let yoe : Int := yi - era * 400
  let mp : Int := ((m : Int) + 9) % 12
  let doy : Int := (153 * mp + 2) / 5 + (d : Int) - 1
  let doe : Int := yoe * 365 + yoe / 4 - yoe / 100 + doy
  era * 146097 + doe - 719468

/-- The instant a `GoTime` denotes, as seconds since the epoch: the
wall-clock reading shifted back by the location's UTC offset. -/
def instantSec (t : GoTime) : Int :=
  daysFromCivil t.year t.month t.day * 86400 + (t.hour : Int) * 3600 +
    (t.minute : Int) * 60 + (t.second : Int) - t.offsetMin * 60

/-- Modelled from the claim's words, for comparison with the code's
output: the instant an ISO-8601 reader assigns to the emitted string.
The emitted string carries the timestamp's wall-clock fields with a
`Z` (UTC) designator, so it denotes the instant whose UTC reading is
that wall clock. -/
def denotedInstant (t : GoTime) : Int :=
  instantSec ⟨t.year, t.month, t.day, t.hour, t.minute, t.second, 0⟩

/-- One raw instance of a list result, seen through the unstructured
accessors the projector uses: `GetName`, `GetNamespace`, `GetLabels`
(`none` when absent or not a string-valued map), `GetCreationTimestamp`
(`none` models the zero time returned for a missing or unparsable
field; a `some` value is the parsed time after the `Local()`
normalization, so within one process every item's `offsetMin` is the
same server-zone offset), and the raw `status` entry (`some` exactly
when it is a JSON object, the `.(map[string]interface{})` assertion). -/
structure RawInstance where
  name : String
  ns : String
  labels : Option (List (String × String))
  creationTimestamp : Option GoTime
  status : Option (List (String × Json))

/-- `ResourceSummary` (the `namespace` field is called `ns`). -/
structure ResourceSummary where
  name : String
  ns : String
  createdAt : Option String
  labels : Option (List (String × String))
  status : Option (List (String × Json))

/-- The per-item projection of `ListResourcesFromKind`: name, namespace
and labels, the formatted creation timestamp when it is not the zero
time, and the raw status sub-document when present. -/
def summaryOf (item : RawInstance) : ResourceSummary :=
  { name := item.name
    ns := item.ns
    labels := item.labels
    createdAt := item.creationTimestamp.map formatTimestamp
    status := item.status }

/-- `ListResourcesResult`. -/
structure ListResourcesResult where
  apiVersion : String
  kind : String
  items : List ResourceSummary
  totalCount : Nat

/-- The error classes of `ListResourcesFromKind`. -/
inductive ListResourcesErr where
  | kindRequired : ListResourcesErr
  | listFailed (msg : String) : ListResourcesErr

/-- `ListResourcesFromKind`: validate the kind, list instances of
`openchoreo.dev/v1alpha1/<kind>` (optionally restricted to a namespace)
through the backing client `listFn`, and project each into a summary
with `totalCount = len(items)`. -/
def ListResourcesFromKind
    (listFn : GroupVersionKind → Option String → Except String (List RawInstance))
    (kind ns : String) : Except ListResourcesErr ListResourcesResult :=
  if kind = "" then .error .kindRequired
  else
    let gvk : GroupVersionKind := ⟨openchoreoGroup, "v1alpha1", kind⟩
    let nsOpt : Option String := if ns ≠ "" then some ns else none
    match listFn gvk nsOpt with
    | .error e => .error (.listFailed e)
    | .ok rawItems =>
      let items := rawItems.map summaryOf
      .ok { apiVersion := openchoreoGroup ++ "/v1alpha1", kind := kind,
            items := items, totalCount := items.length }

/-- `apiextensionsv1.JSONSchemaProps`, restricted to the fields read by
`convertOpenAPISchemaToMap`. `items` models the `*JSONSchemaPropsOrArray`
pointer with its `Schema *JSONSchemaProps` member (the code checks both
for nil and never reads the `JSONSchemas` array member), and
`additionalProperties` models `*JSONSchemaPropsOrBool` with its
`Schema` member likewise. `minimum`/`maximum` are `*float64` in the
source; the flattener only dereferences them, so their payloads are
modelled as integers, and `default`/`example`/`enum` carry arbitrary
JSON payloads. -/
inductive JSONSchemaProps where
  | mk (type description format title : String)
       (defaultVal exampleVal : Option Json)
       (enum : List Json)
       (required : List String)
       (properties : List (String × JSONSchemaProps))
       (items : Option (Option JSONSchemaProps))
       (additionalProperties : Option (Option JSONSchemaProps))
       (minLength maxLength : Option Int)
       (pattern : String)
       (minimum maximum : Option Int)
       (minItems maxItems : Option Int)
       (uniqueItems : Bool)

def JSONSchemaProps.type : JSONSchemaProps → String
  | .mk x _ _ _ _ _ _ _ _ _ _ _ _ _ _ _ _ _ _ => x

def JSONSchemaProps.description : JSONSchemaProps → String
  | .mk _ x _ _ _ _ _ _ _ _ _ _ _ _ _ _ _ _ _ => x

def JSONSchemaProps.format : JSONSchemaProps → String
  | .mk _ _ x _ _ _ _ _ _ _ _ _ _ _ _ _ _ _ _ => x

def JSONSchemaProps.title : JSONSchemaProps → String
  | .mk _ _ _ x _ _ _ _ _ _ _ _ _ _ _ _ _ _ _ => x

def JSONSchemaProps.defaultVal : JSONSchemaProps → Option Json
  | .mk _ _ _ _ x _ _ _ _ _ _ _ _ _ _ _ _ _ _ => x

def JSONSchemaProps.exampleVal : JSONSchemaProps → Option Json
  | .mk _ _ _ _ _ x _ _ _ _ _ _ _ _ _ _ _ _ _ => x

def JSONSchemaProps.enum : JSONSchemaProps → List Json
  | .mk _ _ _ _ _ _ x _ _ _ _ _ _ _ _ _ _ _ _ => x

def JSONSchemaProps.required : JSONSchemaProps → List String
  | .mk _ _ _ _ _ _ _ x _ _ _ _ _ _ _ _ _ _ _ => x

def JSONSchemaProps.properties : JSONSchemaProps → List (String × JSONSchemaProps)
  | .mk _ _ _ _ _ _ _ _ x _ _ _ _ _ _ _ _ _ _ => x

def JSONSchemaProps.items : JSONSchemaProps → Option (Option JSONSchemaProps)
  | .mk _ _ _ _ _ _ _ _ _ x _ _ _ _ _ _ _ _ _ => x

def JSONSchemaProps.additionalProperties : JSONSchemaProps → Option (Option JSONSchemaProps)
  | .mk _ _ _ _ _ _ _ _ _ _ x _ _ _ _ _ _ _ _ => x

def JSONSchemaProps.minLength : JSONSchemaProps → Option Int
  | .mk _ _ _ _ _ _ _ _ _ _ _ x _ _ _ _ _ _ _ => x

def JSONSchemaProps.maxLength : JSONSchemaProps → Option Int
  | .mk _ _ _ _ _ _ _ _ _ _ _ _ x _ _ _ _ _ _ => x

def JSONSchemaProps.pattern : JSONSchemaProps → String
  | .mk _ _ _ _ _ _ _ _ _ _ _ _ _ x _ _ _ _ _ => x

def JSONSchemaProps.minimum : JSONSchemaProps → Option Int
  | .mk _ _ _ _ _ _ _ _ _ _ _ _ _ _ x _ _ _ _ => x

def JSONSchemaProps.maximum : JSONSchemaProps → Option Int
  | .mk _ _ _ _ _ _ _ _ _ _ _ _ _ _ _ x _ _ _ => x

def JSONSchemaProps.minItems : JSONSchemaProps → Option Int
  | .mk _ _ _ _ _ _ _ _ _ _ _ _ _ _ _ _ x _ _ => x

def JSONSchemaProps.maxItems : JSONSchemaProps → Option Int
  | .mk _ _ _ _ _ _ _ _ _ _ _ _ _ _ _ _ _ x _ => x

def JSONSchemaProps.uniqueItems : JSONSchemaProps → Bool
  | .mk _ _ _ _ _ _ _ _ _ _ _ _ _ _ _ _ _ _ x => x

/-- A value of the generic output map (`map[string]interface{}`):
strings, dereferenced integers, booleans, raw JSON payloads, string
lists, JSON lists and nested maps. -/
inductive MapVal where
  | str (s : String) : MapVal
  | int (n : Int) : MapVal
  | bool (b : Bool) : MapVal
  | json (j : Json) : MapVal
  | strList (l : List String) : MapVal
  | jsonList (l : List Json) : MapVal
  | map (m : List (String × MapVal)) : MapVal

/-- One conditional map assignment `if s != "" { result[key] = s }`. -/
def entryIfStr (s : String) (key : String) : List (String × MapVal) :=
  if s = "" then [] else [(key, MapVal.str s)]

/-- One conditional map assignment `if p != nil { result[key] = f(*p) }`. -/
def entryIfOpt {β : Type} (o : Option β) (key : String) (f : β → MapVal) :
    List (String × MapVal) :=
  match o with
  | some b => [(key, f b)]
  | none => []

/-- `convertOpenAPISchemaToMap`: copy each field into the output map
only when present (non-empty string, non-nil pointer, non-empty
collection, true boolean), recursing per property child and into the
single `items` and `additionalProperties` schemas. The entries appear
in the source's assignment order. -/
def convertOpenAPISchemaToMap : JSONSchemaProps → List (String × MapVal)
  | .mk ty desc fm ti df ex en req props itemsv addl minL maxL pat minim maxim minI maxI uniq =>
    entryIfStr ty "type" ++
    entryIfStr desc "description" ++
    entryIfStr fm "format" ++
    entryIfStr ti "title" ++
    entryIfOpt df "default" MapVal.json ++
    entryIfOpt ex "example" MapVal.json ++
    (if en.isEmpty then [] else [("enum", MapVal.jsonList en)]) ++
    (if req.isEmpty then [] else [("required", MapVal.strList req)]) ++
    (if props.isEmpty then [] else
      [("properties",
        MapVal.map (props.attach.map (fun x => (x.1.1, MapVal.map (convertOpenAPISchemaToMap x.1.2)))))]) ++
    (match itemsv with
      | some (some it) => [("items", MapVal.map (convertOpenAPISchemaToMap it))]
      | _ => []) ++
    (match addl with
      | some (some a) => [("additionalProperties", MapVal.map (convertOpenAPISchemaToMap a))]
      | _ => []) ++
    entryIfOpt minL "minLength" MapVal.int ++
    entryIfOpt maxL "maxLength" MapVal.int ++
    entryIfStr pat "pattern" ++
    entryIfOpt minim "minimum" MapVal.int ++
    entryIfOpt maxim "maximum" MapVal.int ++
    entryIfOpt minI "minItems" MapVal.int ++
    entryIfOpt maxI "maxItems" MapVal.int ++
    (if uniq then [("uniqueItems", MapVal.bool uniq)] else [])
termination_by s => sizeOf s
decreasing_by
  · simp_wf
    obtain ⟨⟨a, p⟩, hmem⟩ := x
    have hx := List.sizeOf_lt_of_mem hmem
    simp only [Prod.mk.sizeOf_spec] at hx
    dsimp only
    omega
  · simp_wf
    omega
  · simp_wf
    omega

mutual

/-- A fuel-bounded variant of `convertOpenAPISchemaToMap`: recursion
depth is capped by the fuel and `none` signals exhaustion, making the
termination depth of the source recursion observable. -/
def convertFuel : Nat → JSONSchemaProps → Option (List (String × MapVal))
  | 0, _ => none
  | n + 1, .mk ty desc fm ti df ex en req props itemsv addl minL maxL pat minim maxim minI maxI uniq =>
    match convertFuelList n props,
          (match itemsv with
            | some (some it) => (convertFuel n it).map (fun r => [("items", MapVal.map r)])
            | _ => some []),
          (match addl with
            | some (some a) => (convertFuel n a).map (fun r => [("additionalProperties", MapVal.map r)])
            | _ => some []) with
    | some ps, some its, some ads =>
      some
        (entryIfStr ty "type" ++
         entryIfStr desc "description" ++
         entryIfStr fm "format" ++
         entryIfStr ti "title" ++
         entryIfOpt df "default" MapVal.json ++
         entryIfOpt ex "example" MapVal.json ++
         (if en.isEmpty then [] else [("enum", MapVal.jsonList en)]) ++
         (if req.isEmpty then [] else [("required", MapVal.strList req)]) ++
         (if props.isEmpty then [] else [("properties", MapVal.map ps)]) ++
         its ++ ads ++
         entryIfOpt minL "minLength" MapVal.int ++
         entryIfOpt maxL "maxLength" MapVal.int ++
         entryIfStr pat "pattern" ++
         entryIfOpt minim "minimum" MapVal.int ++
         entryIfOpt maxim "maximum" MapVal.int ++
         entryIfOpt minI "minItems" MapVal.int ++
         entryIfOpt maxI "maxItems" MapVal.int ++
         (if uniq then [("uniqueItems", MapVal.bool uniq)] else []))
    | _, _, _ => none
termination_by n _ => (n, 0)

/-- Fuel-bounded flattening of the `properties` children. -/
def convertFuelList : Nat → List (String × JSONSchemaProps) → Option (List (String × MapVal))
  | _, [] => some []
  | n, (k, p) :: rest =>
    match convertFuel n p, convertFuelList n rest with
    | some r, some rs => some ((k, MapVal.map r) :: rs)
    | _, _ => none
termination_by n l => (n, l.length + 1)

end

/-- `apiextensionsv1.CustomResourceDefinitionVersion`, restricted to the
fields the schema service reads; `schema` models the
`*CustomResourceValidation` pointer with its `OpenAPIV3Schema` pointer. -/
structure CRDVersion where
  name : String
  served : Bool
  storage : Bool
  schema : Option (Option JSONSchemaProps)

/-- `CustomResourceDefinitionNames`. -/
structure CRDNames where
  kind : String
  plural : String
  singular : String
  shortNames : List String
  categories : List String

/-- `CustomResourceDefinitionSpec` (scope is the string constant
`"Namespaced"` for namespace-scoped types). -/
structure CRDSpec where
  group : String
  names : CRDNames
  scope : String
  versions : List CRDVersion

/-- A registered `CustomResourceDefinition` with its object metadata
annotations. -/
structure CRD where
  name : String
  annotations : List (String × String)
  spec : CRDSpec

/-- `apiextensionsv1.NamespaceScoped`. -/
def namespaceScoped : String := "Namespaced"

/-- `models.CRDInfo`. -/
structure CRDInfo where
  kind : String
  group : String
  version : String
  namespaced : Bool
  plural : String
  singular : String
deriving DecidableEq, Repr

/-- The storage-version selection of `ListCRDs`: the name of the first
version flagged `storage`, falling back to the first declared version
when that name is empty. -/
def selectStorageVersion (versions : List CRDVersion) : String :=
  let sv := match versions.find? (·.storage) with
    | some v => v.name
    | none => ""
  match versions with
  | [] => sv
  | v0 :: _ => if sv = "" then v0.name else sv

/-- One `CRDInfo` entry of `ListCRDs`. -/
def toCRDInfo (crd : CRD) : CRDInfo :=
  { kind := crd.spec.names.kind
    group := crd.spec.group
    version := selectStorageVersion crd.spec.versions
    namespaced := crd.spec.scope == namespaceScoped
    plural := crd.spec.names.plural
    singular := crd.spec.names.singular }

/-- The order `sort.Slice` establishes in `ListCRDs`: ascending by kind. -/
def crdLe (a b : CRDInfo) : Prop := a.kind ≤ b.kind

instance : DecidableRel crdLe := fun a b => inferInstanceAs (Decidable (a.kind ≤ b.kind))

instance : IsTotal CRDInfo crdLe := ⟨fun a b => le_total a.kind b.kind⟩

instance : IsTrans CRDInfo crdLe := ⟨fun _ _ _ h h' => le_trans h h'⟩

/-- `ListCRDs`: keep the tenant-group definitions, convert each with its
storage version, and sort by kind (`sort.Slice` modelled as insertion
sort; the claims concern sortedness and content only). -/
def ListCRDs (crdItems : List CRD) : List CRDInfo :=
  List.insertionSort crdLe ((crdItems.filter (fun c => c.spec.group == openchoreoGroup)).map toCRDInfo)

/-- The storage-version selection of `GetCRD`: as `selectStorageVersion`
but also returning the selected version record for schema extraction. -/
def selectStorageVersionSpec (versions : List CRDVersion) : String × Option CRDVersion :=
  let p := match versions.find? (·.storage) with
    | some v => (v.name, some v)
    | none => ("", none)
  match versions with
  | [] => p
  | v0 :: _ => if p.1 = "" then (v0.name, some v0) else p

/-- `models.CRDDetails`. -/
structure CRDDetails where
  name : String
  kind : String
  group : String
  version : String
  namespaced : Bool
  plural : String
  singular : String
  shortNames : List String
  categories : List String
  schema : Option (List (String × MapVal))
  description : String

/-- The error classes of `GetCRD`. -/
inductive GetCRDErr where
  | notFound (name : String) : GetCRDErr
  | notOpenChoreoCRD (name group : String) : GetCRDErr
deriving DecidableEq, Repr

/-- `GetCRD`: fetch the definition by registry name, reject non-tenant
groups, select the storage version, flatten its schema when declared,
and read the optional `description` annotation. -/
def GetCRD (crdItems : List CRD) (crdName : String) : Except GetCRDErr CRDDetails :=
  match crdItems.find? (fun c => c.name == crdName) with
  | none => .error (.notFound crdName)
  | some crd =>
    if crd.spec.group ≠ openchoreoGroup then .error (.notOpenChoreoCRD crdName crd.spec.group)
    else
      let sv := selectStorageVersionSpec crd.spec.versions
      let schemaOut : Option (List (String × MapVal)) :=
        match sv.2 with
        | some vspec =>
          match vspec.schema with
          | some (some props) => some (convertOpenAPISchemaToMap props)
          | _ => none
        | none => none
      let description := match crd.annotations.lookup "description" with
        | some d => d
        | none => ""
      .ok { name := crd.name, kind := crd.spec.names.kind, group := crd.spec.group,
            version := sv.1, namespaced := crd.spec.scope == namespaceScoped,
            plural := crd.spec.names.plural, singular := crd.spec.names.singular,
            shortNames := crd.spec.names.shortNames, categories := crd.spec.names.categories,
            schema := schemaOut, description := description }

/-! Association-list lemmas shared by the theorems below. -/

theorem lookup_append_none {α β : Type} [BEq α] {l l2 : List (α × β)} {k : α}
    (h : l.lookup k = none) : (l ++ l2).lookup k = l2.lookup k := by
  induction l with
  | nil => simp
  | cons hd tl ih =>
    obtain ⟨a, b⟩ := hd
    by_cases hk : (k == a) = true
    · simp [List.lookup, hk] at h
    · simp [List.lookup, hk] at h ⊢
      exact ih h

theorem lookup_singleton_self {α β : Type} [BEq α] [LawfulBEq α] (k : α) (v : β) :
    ([(k, v)] : List (α × β)).lookup k = some v := by
  simp [List.lookup]

theorem lookup_setField_self (m : List (String × Json)) (k : String) (v : Json) :
    (setField m k v).lookup k = some v := by
  induction m with
  | nil => simp [setField, List.lookup]
  | cons hd tl ih =>
    obtain ⟨a, b⟩ := hd
    by_cases hk : a = k
    · simp [setField, hk, List.lookup]
    · have hka : (k == a) = false := beq_eq_false_iff_ne.mpr (Ne.symm hk)
      simp only [setField, if_neg hk, List.lookup, hka]
      exact ih

theorem lookup_setField_ne (m : List (String × Json)) (k k' : String) (v : Json)
    (h : k' ≠ k) : (setField m k' v).lookup k = m.lookup k := by
  have hkk : (k == k') = false := beq_eq_false_iff_ne.mpr (Ne.symm h)
  induction m with
  | nil => simp [setField, List.lookup, hkk]
  | cons hd tl ih =>
    obtain ⟨a, b⟩ := hd
    by_cases hk : a = k'
    · subst hk
      simp [setField, List.lookup, hkk]
    · simp only [setField, if_neg hk, List.lookup]
      cases hka : (k == a) with
      | true => rfl
      | false => exact ih

theorem lookup_removeField_self (m : List (String × Json)) (k : String) :
    (removeField m k).lookup k = none := by
  induction m with
  | nil => simp [removeField, List.lookup]
  | cons hd tl ih =>
    obtain ⟨a, b⟩ := hd
    by_cases hk : a = k
    · simp only [removeField, if_pos hk]
      exact ih
    · have hka : (k == a) = false := beq_eq_false_iff_ne.mpr (Ne.symm hk)
      simp only [removeField, if_neg hk, List.lookup, hka]
      exact ih

/-! Namespace-accessor lemmas. -/

theorem getMetadataStr_congr {o o' : Unstr} (k : String)
    (h : o.lookup "metadata" = o'.lookup "metadata") :
    getMetadataStr o k = getMetadataStr o' k := by
  unfold getMetadataStr
  rw [h]

theorem lookup_metadata_setGroupVersionKind (o : Unstr) (g : GroupVersionKind) :
    (setGroupVersionKind o g).lookup "metadata" = o.lookup "metadata" := by
  unfold setGroupVersionKind
  rw [lookup_setField_ne _ _ _ _ (by decide), lookup_setField_ne _ _ _ _ (by decide)]

theorem getNamespace_setNamespace_empty (o : Unstr) :
    getNamespace (setNamespace o "") = "" := by
  unfold setNamespace removeMetadataField getNamespace getMetadataStr
  simp only [if_pos rfl]
  cases h : o.lookup "metadata" with
  | none => simp [h]
  | some j =>
    cases j with
    | obj m => simp [h, lookup_setField_self, lookup_removeField_self]
    | null => simp [h]
    | bool b => simp [h]
    | num n => simp [h]
    | str s => simp [h]
    | arr l => simp [h]

/-- The data-model invariant of `GenericObject`: `metadata`, when
present, is itself a map. -/
def metadataOk (o : Unstr) : Prop :=
  o.lookup "metadata" = none ∨ ∃ m, o.lookup "metadata" = some (.obj m)

theorem getNamespace_setNamespace_nonempty (o : Unstr) (ns : String)
    (hns : ns ≠ "") (hm : metadataOk o) :
    getNamespace (setNamespace o ns) = ns := by
  unfold setNamespace setMetadataField getNamespace getMetadataStr
  rcases hm with h | ⟨m, h⟩ <;>
    simp [h, hns, lookup_setField_self]

theorem metadataOk_of_lookup_eq {o o' : Unstr}
    (h : o.lookup "metadata" = o'.lookup "metadata") (hm : metadataOk o') :
    metadataOk o := by
  unfold metadataOk at *
  rw [h]
  exact hm

/-! Upsert-engine lemmas. -/

theorem applyToKubernetes_created (s : Store) (obj : Unstr)
    (he : s.getErrs.lookup (applyKeyOf obj) = none)
    (ho : s.objs.lookup (applyKeyOf obj) = none) :
    applyToKubernetes s obj =
      (.ok "created",
       ⟨s.objs ++ [(applyKeyOf obj, obj)], s.getErrs,
        s.log ++ [.getCall (applyKeyOf obj), .createCall (applyKeyOf obj)]⟩) := by
  simp [applyToKubernetes, k8sGet, k8sCreate, he, ho]

theorem applyToKubernetes_getError (s : Store) (obj : Unstr) (msg : String)
    (he : s.getErrs.lookup (applyKeyOf obj) = some msg) :
    applyToKubernetes s obj =
      (.error (.other msg),
       ⟨s.objs, s.getErrs, s.log ++ [.getCall (applyKeyOf obj)]⟩) := by
  simp [applyToKubernetes, k8sGet, he]

theorem applyToKubernetes_updated (s : Store) (obj existing : Unstr)
    (he : s.getErrs.lookup (applyKeyOf obj) = none)
    (ho : s.objs.lookup (applyKeyOf obj) = some existing) :
    applyToKubernetes s obj =
      (.ok "updated",
       ⟨setKey s.objs (applyKeyOf obj) obj, s.getErrs,
        s.log ++ [.getCall (applyKeyOf obj), .patchCall (applyKeyOf obj) true fieldManager]⟩) := by
  simp [applyToKubernetes, k8sGet, k8sPatch, he, ho]

/-- C1: the upsert engine first fetches at the object's
(group/version/kind, namespace, name) coordinates; a NotFound fetch
leads to creating the object exactly as given with operation
`"created"`; any other fetch error is propagated with no create or
patch call issued; a successful fetch leads to a server-side-apply
patch of the full object with forced ownership under the field manager
`"openchoreo-mcp"` and operation `"updated"`; and re-applying the same
object right after it was created yields `"updated"`. -/
theorem upsertEngine_applyToKubernetes_spec (s : Store) (obj : Unstr) :
    (s.getErrs.lookup (applyKeyOf obj) = none →
     s.objs.lookup (applyKeyOf obj) = none →
      applyToKubernetes s obj =
        (.ok "created",
         ⟨s.objs ++ [(applyKeyOf obj, obj)], s.getErrs,
          s.log ++ [.getCall (applyKeyOf obj), .createCall (applyKeyOf obj)]⟩)) ∧
    (∀ msg, s.getErrs.lookup (applyKeyOf obj) = some msg →
      applyToKubernetes s obj =
        (.error (.other msg),
         ⟨s.objs, s.getErrs, s.log ++ [.getCall (applyKeyOf obj)]⟩)) ∧
    (∀ existing, s.getErrs.lookup (applyKeyOf obj) = none →
      s.objs.lookup (applyKeyOf obj) = some existing →
      applyToKubernetes s obj =
        (.ok "updated",
         ⟨setKey s.objs (applyKeyOf obj) obj, s.getErrs,
          s.log ++ [.getCall (applyKeyOf obj), .patchCall (applyKeyOf obj) true fieldManager]⟩)) ∧
    (s.getErrs.lookup (applyKeyOf obj) = none →
     s.objs.lookup (applyKeyOf obj) = none →
      (applyToKubernetes ((applyToKubernetes s obj).2) obj).1 = .ok "updated") := by
  refine ⟨applyToKubernetes_created s obj,
          fun msg he => applyToKubernetes_getError s obj msg he,
          fun existing he ho => applyToKubernetes_updated s obj existing he ho, ?_⟩
  intro he ho
  rw [applyToKubernetes_created s obj he ho]
  have hlook : (s.objs ++ [(applyKeyOf obj, obj)]).lookup (applyKeyOf obj) = some obj := by
    rw [lookup_append_none ho, lookup_singleton_self]
  dsimp only
  have h2 := applyToKubernetes_updated
    (Store.mk (s.objs ++ [(applyKeyOf obj, obj)]) s.getErrs
      (s.log ++ [StoreCall.getCall (applyKeyOf obj), StoreCall.createCall (applyKeyOf obj)]))
    obj obj he hlook
  rw [h2]

/-- Witness for C1: a concrete apply into an empty store creates, and
the immediate re-apply of the same object updates. -/
theorem upsertEngine_applyToKubernetes_witness :
    (applyToKubernetes
      ((applyToKubernetes ⟨[], [], []⟩
        [("apiVersion", .str "openchoreo.dev/v1alpha1"), ("kind", .str "Widget"),
         ("metadata", .obj [("name", .str "w1"), ("namespace", .str "default")])]).2)
      [("apiVersion", .str "openchoreo.dev/v1alpha1"), ("kind", .str "Widget"),
       ("metadata", .obj [("name", .str "w1"), ("namespace", .str "default")])]).1 =
      .ok "updated" :=
  (upsertEngine_applyToKubernetes_spec ⟨[], [], []⟩
    [("apiVersion", .str "openchoreo.dev/v1alpha1"), ("kind", .str "Widget"),
     ("metadata", .obj [("name", .str "w1"), ("namespace", .str "default")])]).2.2.2 rfl rfl

/-! Scope-policy lemmas. -/

theorem handleResourceNamespace_step (obj : Unstr) (apiVersion kind : String)
    (gv : GroupVersion) (h : parseGroupVersion apiVersion = .ok gv) :
    ∃ obj1 : Unstr, obj1.lookup "metadata" = obj.lookup "metadata" ∧
      handleResourceNamespace obj apiVersion kind =
        (if clusterScopedKinds.contains kind then
          .ok (if getNamespace obj1 ≠ "" then setNamespace obj1 "" else obj1)
        else if getNamespace obj1 ≠ "" then .ok obj1
        else .ok (setNamespace obj1 "default")) := by
  unfold handleResourceNamespace handleNamespacedResource
  by_cases hE : gvkEmpty (objGroupVersionKind obj) = true
  · refine ⟨setGroupVersionKind obj ⟨gv.group, gv.version, kind⟩,
      lookup_metadata_setGroupVersionKind obj _, ?_⟩
    simp [hE, h]
  · refine ⟨obj, rfl, ?_⟩
    simp [hE]

/-- C2: under the scope policy, an object of a cluster-scoped kind ends
with an empty namespace whatever the input; any other kind keeps a
non-empty input namespace unchanged and has an empty one defaulted to
`"default"`. The hypotheses are the call context: the `apiVersion`
argument was already resolved by validation, and a `GenericObject`'s
`metadata`, when present, is a map. -/
theorem scopePolicy_handleResourceNamespace_spec (obj : Unstr) (apiVersion kind : String)
    (gv : GroupVersion) (h : parseGroupVersion apiVersion = .ok gv) (hm : metadataOk obj) :
    (clusterScopedKinds.contains kind = true →
      ∃ obj2, handleResourceNamespace obj apiVersion kind = .ok obj2 ∧
        getNamespace obj2 = "") ∧
    (clusterScopedKinds.contains kind = false → getNamespace obj = "" →
      ∃ obj2, handleResourceNamespace obj apiVersion kind = .ok obj2 ∧
        getNamespace obj2 = "default") ∧
    (clusterScopedKinds.contains kind = false → getNamespace obj ≠ "" →
      ∃ obj2, handleResourceNamespace obj apiVersion kind = .ok obj2 ∧
        getNamespace obj2 = getNamespace obj) := by
  obtain ⟨obj1, hmeta, heq⟩ := handleResourceNamespace_step obj apiVersion kind gv h
  have hns1 : getNamespace obj1 = getNamespace obj := getMetadataStr_congr _ hmeta
  have hm1 : metadataOk obj1 := metadataOk_of_lookup_eq hmeta hm
  refine ⟨?_, ?_, ?_⟩
  · intro hc
    have hcm : kind ∈ clusterScopedKinds := by simpa using hc
    rw [heq]
    by_cases hn : getNamespace obj1 ≠ ""
    · exact ⟨setNamespace obj1 "", by simp [hcm, hn], getNamespace_setNamespace_empty obj1⟩
    · push_neg at hn
      exact ⟨obj1, by simp [hcm, hn], hn⟩
  · intro hc hns
    have hcm : kind ∉ clusterScopedKinds := by simpa using hc
    have h1 : getNamespace obj1 = "" := hns1.trans hns
    rw [heq]
    exact ⟨setNamespace obj1 "default", by simp [hcm, h1],
      getNamespace_setNamespace_nonempty obj1 "default" (by decide) hm1⟩
  · intro hc hns
    have hcm : kind ∉ clusterScopedKinds := by simpa using hc
    have h1 : getNamespace obj1 ≠ "" := by rw [hns1]; exact hns
    rw [heq]
    exact ⟨obj1, by simp [hcm, h1], hns1⟩

/-- Witness for C2: a cluster-scoped `Organization` sent with a
namespace gets it stripped. -/
theorem scopePolicy_handleResourceNamespace_witness :
    ∃ obj2, handleResourceNamespace
        [("apiVersion", .str "openchoreo.dev/v1"), ("kind", .str "Organization"),
         ("metadata", .obj [("name", .str "acme"), ("namespace", .str "ignored")])]
        "openchoreo.dev/v1" "Organization" = .ok obj2 ∧ getNamespace obj2 = "" :=
  (scopePolicy_handleResourceNamespace_spec
    [("apiVersion", .str "openchoreo.dev/v1"), ("kind", .str "Organization"),
     ("metadata", .obj [("name", .str "acme"), ("namespace", .str "ignored")])]
    "openchoreo.dev/v1" "Organization" ⟨"openchoreo.dev", "v1"⟩ rfl
    (Or.inr ⟨[("name", .str "acme"), ("namespace", .str "ignored")], rfl⟩)).1 rfl

/-- C3: an input whose resolved group is not the tenant group
`openchoreo.dev` is rejected: `validateResource` fails with the
forbidden-group error once the kind and apiVersion fields themselves are
well-formed, and `GetCRD` fails with the non-OpenChoreo error on any
fetched catalog entry of another group. -/
theorem forbiddenGroup_rejected :
    (∀ (m : List (String × Json)) (kind apiVersion : String) (gv : GroupVersion),
      m.lookup "kind" = some (.str kind) → kind ≠ "" →
      m.lookup "apiVersion" = some (.str apiVersion) → apiVersion ≠ "" →
      parseGroupVersion apiVersion = .ok gv → gv.group ≠ openchoreoGroup →
      validateResource m = .error (.forbiddenGroup gv.group)) ∧
    (∀ (crdItems : List CRD) (crdName : String) (crd : CRD),
      crdItems.find? (fun c => c.name == crdName) = some crd →
      crd.spec.group ≠ openchoreoGroup →
      GetCRD crdItems crdName = .error (.notOpenChoreoCRD crdName crd.spec.group)) := by
  constructor
  · intro m kind apiVersion gv h1 h2 h3 h4 h5 h6
    unfold validateResource
    rw [h1, h3]
    simp [h2, h4, h5, h6]
  · intro crdItems crdName crd hf hg
    unfold GetCRD
    rw [hf]
    simp [hg]

/-- Witness for C3: a `Widget` of group `other.example` is rejected by
validation, and a fetched catalog entry of group `other.example` is
rejected by `GetCRD`. -/
theorem forbiddenGroup_rejected_witness :
    validateResource
        [("kind", .str "Widget"), ("apiVersion", .str "other.example/v1"),
         ("metadata", .obj [("name", .str "x")])] =
      .error (.forbiddenGroup "other.example") ∧
    GetCRD [⟨"widgets.other.example", [],
        ⟨"other.example", ⟨"Widget", "widgets", "widget", [], []⟩, "Namespaced", []⟩⟩]
        "widgets.other.example" =
      .error (.notOpenChoreoCRD "widgets.other.example" "other.example") :=
  ⟨forbiddenGroup_rejected.1
      [("kind", .str "Widget"), ("apiVersion", .str "other.example/v1"),
       ("metadata", .obj [("name", .str "x")])]
      "Widget" "other.example/v1" ⟨"other.example", "v1"⟩ rfl (by decide) rfl (by decide)
      rfl (by decide),
   forbiddenGroup_rejected.2
      [⟨"widgets.other.example", [],
        ⟨"other.example", ⟨"Widget", "widgets", "widget", [], []⟩, "Namespaced", []⟩⟩]
      "widgets.other.example"
      ⟨"widgets.other.example", [],
        ⟨"other.example", ⟨"Widget", "widgets", "widget", [], []⟩, "Namespaced", []⟩⟩
      rfl (by decide)⟩

/-- C9: an input rejected before the upsert step — unparsable JSON, a
non-object document, or any validation failure (missing/empty kind,
apiVersion or name, malformed apiVersion, non-tenant group) — makes
`ApplyResourceFromJSON` return the error with the store returned
untouched: same objects and same call log, so no store call happened. -/
theorem apply_validation_atomic (s : Store) :
    (ApplyResourceFromJSON s none = (.error .parseFailed, s)) ∧
    (∀ j : Json, (∀ fields, j ≠ .obj fields) →
      ApplyResourceFromJSON s (some j) = (.error .parseFailed, s)) ∧
    (∀ (m : List (String × Json)) (e : ValidateErr), validateResource m = .error e →
      ApplyResourceFromJSON s (some (.obj m)) = (.error (.validation e), s)) := by
  refine ⟨rfl, ?_, ?_⟩
  · intro j hj
    cases j with
    | obj fields => exact absurd rfl (hj fields)
    | null => rfl
    | bool b => rfl
    | num n => rfl
    | str s2 => rfl
    | arr l => rfl
  · intro m e hv
    simp [ApplyResourceFromJSON, hv]

/-- Witness for C9: an empty JSON object is rejected for its missing
kind and the empty store comes back unchanged. -/
theorem apply_validation_atomic_witness :
    ApplyResourceFromJSON ⟨[], [], []⟩ (some (.obj [])) =
      (.error (.validation .missingKind), ⟨[], [], []⟩) :=
  (apply_validation_atomic ⟨[], [], []⟩).2.2 [] .missingKind rfl

/-- C6: every successful `ListResourcesFromKind` result has
`totalCount` equal to the number of entries in `items`. -/
theorem listResources_totalCount
    (listFn : GroupVersionKind → Option String → Except String (List RawInstance))
    (kind ns : String) (r : ListResourcesResult)
    (h : ListResourcesFromKind listFn kind ns = .ok r) :
    r.totalCount = r.items.length := by
  unfold ListResourcesFromKind at h
  split at h
  · exact absurd h (by simp)
  · dsimp only at h
    split at h <;>
      first
        | (rw [Except.ok.injEq] at h; subst h; rfl)
        | exact absurd h (by simp)

/-- Witness for C6: a two-element listing reports `totalCount = 2`. -/
theorem listResources_totalCount_witness :
    ∃ r, ListResourcesFromKind
        (fun _ _ => .ok [⟨"a", "default", none, none, none⟩, ⟨"b", "default", none, none, none⟩])
        "Widget" "" = .ok r ∧ r.totalCount = r.items.length :=
  ⟨_, rfl, listResources_totalCount
    (fun _ _ => .ok [⟨"a", "default", none, none, none⟩, ⟨"b", "default", none, none, none⟩])
    "Widget" "" _ rfl⟩

/-- C7 (counterexample): on a server whose local zone is +05:00, an
instance created at the instant 2024-01-01T10:00:00 UTC is seen through
`GetCreationTimestamp` as the server-local reading 15:00 at offset
+05:00 (`Local()` normalization); the projector emits
`2024-01-01T15:00:00Z` — Go's layout `2006-01-02T15:04:05Z` ends in a
literal `Z` — and that string, read as ISO-8601, denotes a different
instant than the creation time, so the emitted timestamp does not
correctly represent it. -/
theorem listProjector_timestamp_counterexample :
    (summaryOf ⟨"w1", "default", none, some ⟨2024, 1, 1, 15, 0, 0, 300⟩, none⟩).createdAt =
      some "2024-01-01T15:00:00Z" ∧
    denotedInstant ⟨2024, 1, 1, 15, 0, 0, 300⟩ ≠ instantSec ⟨2024, 1, 1, 15, 0, 0, 300⟩ := by
  exact ⟨rfl, by decide⟩

/-- C7 (amended): the projector emits the instance's name, namespace,
label set and raw status sub-document, omits the creation timestamp
when it is zero/unset, and otherwise renders the timestamp — already
normalized to the server's local zone — from its wall-clock fields with
a literal `Z` suffix; read as ISO-8601, the emitted string denotes the
creation instant shifted by the server zone's offset, so it correctly
represents the creation time exactly when the server's local zone is
UTC. -/
theorem listProjector_summaryOf_spec (item : RawInstance) :
    (summaryOf item).name = item.name ∧
    (summaryOf item).ns = item.ns ∧
    (summaryOf item).labels = item.labels ∧
    (summaryOf item).status = item.status ∧
    (item.creationTimestamp = none → (summaryOf item).createdAt = none) ∧
    (∀ t, item.creationTimestamp = some t →
      (summaryOf item).createdAt = some (formatTimestamp t) ∧
      denotedInstant t = instantSec t + t.offsetMin * 60 ∧
      (t.offsetMin = 0 → denotedInstant t = instantSec t)) :=
  ⟨rfl, rfl, rfl, rfl, fun h => by simp [summaryOf, h],
   fun t ht =>
    ⟨by simp [summaryOf, ht],
     by simp [denotedInstant, instantSec],
     fun h0 => by simp [denotedInstant, instantSec, h0]⟩⟩

/-- Witness for C7 (amended): the concrete +05:00 server-local instance
has its wall-clock reading emitted with the `Z` suffix, and on a UTC
server (offset zero) the emitted string denotes the creation instant. -/
theorem listProjector_summaryOf_witness :
    (summaryOf ⟨"w1", "default", some [("app", "demo")],
        some ⟨2024, 1, 1, 10, 0, 0, 0⟩, none⟩).createdAt =
      some "2024-01-01T10:00:00Z" ∧
    denotedInstant ⟨2024, 1, 1, 10, 0, 0, 0⟩ = instantSec ⟨2024, 1, 1, 10, 0, 0, 0⟩ :=
  ⟨(((listProjector_summaryOf_spec
      ⟨"w1", "default", some [("app", "demo")], some ⟨2024, 1, 1, 10, 0, 0, 0⟩,
       none⟩).2.2.2.2.2 ⟨2024, 1, 1, 10, 0, 0, 0⟩ rfl).1).trans rfl,
   ((listProjector_summaryOf_spec
      ⟨"w1", "default", some [("app", "demo")], some ⟨2024, 1, 1, 10, 0, 0, 0⟩,
       none⟩).2.2.2.2.2 ⟨2024, 1, 1, 10, 0, 0, 0⟩ rfl).2.2 rfl⟩

/-- C5: `ListCRDs` returns exactly the registered definitions of the
tenant group (a permutation of their conversions), sorted ascending by
kind, and each entry's version is the storage selection: the version
flagged `storage` when one is declared with a (non-empty) name, else
the first declared version. -/
theorem listTypes_ListCRDs_spec :
    (∀ crdItems : List CRD, List.Sorted crdLe (ListCRDs crdItems)) ∧
    (∀ crdItems : List CRD,
      (ListCRDs crdItems).Perm
        ((crdItems.filter (fun c => c.spec.group == openchoreoGroup)).map toCRDInfo)) ∧
    (∀ (versions : List CRDVersion) (v : CRDVersion),
      versions.find? (·.storage) = some v → v.name ≠ "" →
      selectStorageVersion versions = v.name) ∧
    (∀ (v0 : CRDVersion) (tl : List CRDVersion),
      (v0 :: tl).find? (·.storage) = none →
      selectStorageVersion (v0 :: tl) = v0.name) ∧
    (∀ crd : CRD, (toCRDInfo crd).version = selectStorageVersion crd.spec.versions) := by
  refine ⟨?_, ?_, ?_, ?_, fun crd => rfl⟩
  · intro crdItems
    exact List.sorted_insertionSort crdLe _
  · intro crdItems
    exact List.perm_insertionSort crdLe _
  · intro versions v hf hn
    unfold selectStorageVersion
    rw [hf]
    cases versions with
    | nil => simp [List.find?] at hf
    | cons v0 tl => simp [hn]
  · intro v0 tl hf
    unfold selectStorageVersion
    rw [hf]
    simp

/-- Witness for C5: with `v2` declared first and `v1` flagged storage,
the storage version `v1` is selected. -/
theorem listTypes_ListCRDs_witness :
    selectStorageVersion [⟨"v2", true, false, none⟩, ⟨"v1", true, true, none⟩] = "v1" :=
  listTypes_ListCRDs_spec.2.2.1 [⟨"v2", true, false, none⟩, ⟨"v1", true, true, none⟩]
    ⟨"v1", true, true, none⟩ rfl (by decide)

/-- C10: a tenant-group definition with an empty version list breaks
neither operation: `ListCRDs` keeps its entry with the empty-string
version, and `GetCRD` returns it with empty version and no schema. -/
theorem emptyVersions_handled :
    (∀ (crdItems : List CRD) (crd : CRD), crd ∈ crdItems →
      crd.spec.group = openchoreoGroup → crd.spec.versions = [] →
      ∃ info ∈ ListCRDs crdItems, info = toCRDInfo crd ∧ info.version = "") ∧
    (∀ (crdItems : List CRD) (crd : CRD) (crdName : String),
      crdItems.find? (fun c => c.name == crdName) = some crd →
      crd.spec.group = openchoreoGroup → crd.spec.versions = [] →
      ∃ details, GetCRD crdItems crdName = .ok details ∧
        details.version = "" ∧ details.schema = none) := by
  constructor
  · intro crdItems crd hmem hg hv
    refine ⟨toCRDInfo crd, ?_, rfl, ?_⟩
    · unfold ListCRDs
      rw [List.mem_insertionSort]
      exact List.mem_map_of_mem toCRDInfo (List.mem_filter.mpr ⟨hmem, by simp [hg]⟩)
    · simp [toCRDInfo, selectStorageVersion, hv, List.find?]
  · intro crdItems crd crdName hf hg hv
    unfold GetCRD
    rw [hf]
    simp [hg, hv, selectStorageVersionSpec, List.find?]

/-- Witness for C10: a tenant definition with no declared versions is
returned by `GetCRD` with empty version and no schema. -/
theorem emptyVersions_handled_witness :
    ∃ details, GetCRD
        [⟨"ws.openchoreo.dev", [],
          ⟨"openchoreo.dev", ⟨"W", "ws", "w", [], []⟩, "Namespaced", []⟩⟩]
        "ws.openchoreo.dev" = .ok details ∧
      details.version = "" ∧ details.schema = none :=
  emptyVersions_handled.2
    [⟨"ws.openchoreo.dev", [],
      ⟨"openchoreo.dev", ⟨"W", "ws", "w", [], []⟩, "Namespaced", []⟩⟩]
    ⟨"ws.openchoreo.dev", [],
      ⟨"openchoreo.dev", ⟨"W", "ws", "w", [], []⟩, "Namespaced", []⟩⟩
    "ws.openchoreo.dev" rfl rfl rfl

/-! Flattener key lemmas. -/

theorem keys_entryIfStr (s key k : String) :
    k ∈ (entryIfStr s key).map Prod.fst ↔ (k = key ∧ s ≠ "") := by
  unfold entryIfStr
  split <;> simp_all

theorem keys_entryIfOpt {β : Type} (o : Option β) (key : String) (f : β → MapVal) (k : String) :
    k ∈ (entryIfOpt o key f).map Prod.fst ↔ (k = key ∧ o.isSome = true) := by
  cases o <;> simp [entryIfOpt]

theorem keys_iteNil (c : Prop) [Decidable c] (key : String) (v : MapVal) (k : String) :
    k ∈ (if c then ([] : List (String × MapVal)) else [(key, v)]).map Prod.fst ↔
      (k = key ∧ ¬c) := by
  split <;> simp_all

theorem keys_iteCons (c : Prop) [Decidable c] (key : String) (v : MapVal) (k : String) :
    k ∈ (if c then [(key, v)] else ([] : List (String × MapVal))).map Prod.fst ↔
      (k = key ∧ c) := by
  split <;> simp_all

theorem none_eq_some_iff {α : Type} (a : α) : ((none : Option α) = some a) ↔ False := by
  simp

/-- C4: the flattened map of a schema node holds exactly the keys whose
source field is actually present — non-empty strings, non-nil pointers,
non-empty collections, and `uniqueItems` only when true — and a node
with only `type = "string"` flattens to the single-entry map `type`. -/
theorem flattener_presentFieldsOnly (s : JSONSchemaProps) (k : String) :
    (k ∈ (convertOpenAPISchemaToMap s).map Prod.fst ↔
      ((k = "type" ∧ s.type ≠ "") ∨
       (k = "description" ∧ s.description ≠ "") ∨
       (k = "format" ∧ s.format ≠ "") ∨
       (k = "title" ∧ s.title ≠ "") ∨
       (k = "default" ∧ s.defaultVal.isSome = true) ∨
       (k = "example" ∧ s.exampleVal.isSome = true) ∨
       (k = "enum" ∧ s.enum ≠ []) ∨
       (k = "required" ∧ s.required ≠ []) ∨
       (k = "properties" ∧ s.properties ≠ []) ∨
       (k = "items" ∧ ∃ it, s.items = some (some it)) ∨
       (k = "additionalProperties" ∧ ∃ a, s.additionalProperties = some (some a)) ∨
       (k = "minLength" ∧ s.minLength.isSome = true) ∨
       (k = "maxLength" ∧ s.maxLength.isSome = true) ∨
       (k = "pattern" ∧ s.pattern ≠ "") ∨
       (k = "minimum" ∧ s.minimum.isSome = true) ∨
       (k = "maximum" ∧ s.maximum.isSome = true) ∨
       (k = "minItems" ∧ s.minItems.isSome = true) ∨
       (k = "maxItems" ∧ s.maxItems.isSome = true) ∨
       (k = "uniqueItems" ∧ s.uniqueItems = true))) ∧
    convertOpenAPISchemaToMap
        (.mk "string" "" "" "" none none [] [] [] none none none none "" none none none none
          false) =
      [("type", MapVal.str "string")] := by
  obtain ⟨ty, desc, fm, ti, df, ex, en, req, props, itemsv, addl, minL, maxL, pat, minim,
    maxim, minI, maxI, uniq⟩ := s
  constructor
  · rcases itemsv with _ | (_ | it) <;> rcases addl with _ | (_ | a) <;>
      simp only [convertOpenAPISchemaToMap, List.map_append, List.mem_append,
        keys_entryIfStr, keys_entryIfOpt, keys_iteNil, keys_iteCons,
        List.isEmpty_iff, ne_eq, List.map_nil, List.not_mem_nil, List.map_cons,
        List.mem_singleton, none_eq_some_iff, Option.some.injEq, exists_eq',
        exists_false, and_false, false_or, or_false, and_true, true_and, or_assoc,
        JSONSchemaProps.type, JSONSchemaProps.description, JSONSchemaProps.format,
        JSONSchemaProps.title, JSONSchemaProps.defaultVal, JSONSchemaProps.exampleVal,
        JSONSchemaProps.enum, JSONSchemaProps.required, JSONSchemaProps.properties,
        JSONSchemaProps.items, JSONSchemaProps.additionalProperties,
        JSONSchemaProps.minLength, JSONSchemaProps.maxLength, JSONSchemaProps.pattern,
        JSONSchemaProps.minimum, JSONSchemaProps.maximum, JSONSchemaProps.minItems,
        JSONSchemaProps.maxItems, JSONSchemaProps.uniqueItems]
  · simp only [convertOpenAPISchemaToMap]
    simp [entryIfStr, entryIfOpt]

/-- The `attach` used for termination is invisible to the result. -/
theorem attach_map_convert (l : List (String × JSONSchemaProps)) :
    l.attach.map (fun x => (x.1.1, MapVal.map (convertOpenAPISchemaToMap x.1.2))) =
      l.map (fun x => (x.1, MapVal.map (convertOpenAPISchemaToMap x.2))) :=
  List.attach_map_coe l (fun x => (x.1, MapVal.map (convertOpenAPISchemaToMap x.2)))

theorem convertFuelList_eq (n : Nat) (l : List (String × JSONSchemaProps))
    (h : ∀ x ∈ l, convertFuel n x.2 = some (convertOpenAPISchemaToMap x.2)) :
    convertFuelList n l =
      some (l.map (fun x => (x.1, MapVal.map (convertOpenAPISchemaToMap x.2)))) := by
  induction l with
  | nil => simp [convertFuelList]
  | cons hd tl ih =>
    obtain ⟨a, p⟩ := hd
    have h1 := h (a, p) (List.mem_cons_self _ _)
    have h2 := ih (fun x hx => h x (List.mem_cons_of_mem _ hx))
    simp [convertFuelList, h1, h2]

theorem convertFuel_eq (n : Nat) : ∀ s : JSONSchemaProps, sizeOf s < n →
    convertFuel n s = some (convertOpenAPISchemaToMap s) := by
  induction n using Nat.strong_induction_on with
  | _ n IH =>
    intro s hs
    obtain ⟨ty, desc, fm, ti, df, ex, en, req, props, itemsv, addl, minL, maxL, pat, minim,
      maxim, minI, maxI, uniq⟩ := s
    cases n with
    | zero => exact absurd hs (Nat.not_lt_zero _)
    | succ m =>
      simp only [JSONSchemaProps.mk.sizeOf_spec] at hs
      have hprops : ∀ x ∈ props, convertFuel m x.2 = some (convertOpenAPISchemaToMap x.2) := by
        intro x hx
        have h1 := List.sizeOf_lt_of_mem hx
        obtain ⟨a, p⟩ := x
        simp only [Prod.mk.sizeOf_spec] at h1
        exact IH m (Nat.lt_succ_self m) p (by omega)
      have hlist := convertFuelList_eq m props hprops
      have hitem2 : ∀ it2, itemsv = some (some it2) →
          convertFuel m it2 = some (convertOpenAPISchemaToMap it2) := by
        intro it2 h2
        subst h2
        simp only [Option.some.sizeOf_spec] at hs
        exact IH m (Nat.lt_succ_self m) it2 (by omega)
      have haddl2 : ∀ a2, addl = some (some a2) →
          convertFuel m a2 = some (convertOpenAPISchemaToMap a2) := by
        intro a2 h2
        subst h2
        simp only [Option.some.sizeOf_spec] at hs
        exact IH m (Nat.lt_succ_self m) a2 (by omega)
      rcases itemsv with _ | (_ | it) <;> rcases addl with _ | (_ | a) <;>
        (try have hi := hitem2 _ rfl) <;>
        (try have ha := haddl2 _ rfl) <;>
        simp [convertFuel, hlist, convertOpenAPISchemaToMap, attach_map_convert, *]

/-- C8: the flattening recursion terminates on every finite schema tree
with no depth limit — fuel one more than the tree size always reaches
every leaf, computing exactly `convertOpenAPISchemaToMap` — and a
primitive leaf (no properties, items or additionalProperties) needs no
recursion at all: fuel 1 already suffices. -/
theorem flattener_terminates :
    (∀ s : JSONSchemaProps, convertFuel (sizeOf s + 1) s = some (convertOpenAPISchemaToMap s)) ∧
    (∀ s : JSONSchemaProps, s.properties = [] → s.items = none →
      s.additionalProperties = none →
      convertFuel 1 s = some (convertOpenAPISchemaToMap s)) := by
  constructor
  · intro s
    exact convertFuel_eq (sizeOf s + 1) s (Nat.lt_succ_self _)
  · intro s hp hi ha
    obtain ⟨ty, desc, fm, ti, df, ex, en, req, props, itemsv, addl, minL, maxL, pat, minim,
      maxim, minI, maxI, uniq⟩ := s
    have hp2 : props = [] := hp
    have hi2 : itemsv = none := hi
    have ha2 : addl = none := ha
    subst hp2 hi2 ha2
    rw [show (1 : Nat) = 0 + 1 from rfl]
    simp [convertFuel, convertFuelList, convertOpenAPISchemaToMap]

/-- Witness for C8: a primitive string leaf is flattened with fuel 1. -/
theorem flattener_terminates_witness :
    convertFuel 1
        (.mk "string" "" "" "" none none [] [] [] none none none none "" none none none none
          false) =
      some (convertOpenAPISchemaToMap
        (.mk "string" "" "" "" none none [] [] [] none none none none "" none none none none
          false)) :=
  flattener_terminates.2
    (.mk "string" "" "" "" none none [] [] [] none none none none "" none none none none false)
    rfl rfl rfl

end OpenChoreo
